import Mathlib

/-!
Shallow embedding of the projected least-squares solver in
packages/belos/src/BelosProjectedLeastSquaresSolver.hpp (namespace Belos::details).

Scalars are modelled as exact rationals.  The opaque dense linear-algebra
primitives that the code calls (the BLAS rotation generator ROTG, the LAPACK
scaled triangular solver LATRS and SVD least-squares solver GELSS) are taken
as parameters of the model; primitives whose documented numerical contract
the code relies on directly (ROT plane-rotation application, TRSM triangular
back-substitution, the LATRS off-diagonal column 1-norms) are given their
exact-arithmetic meaning.
-/

namespace Belos

/-- Model of Teuchos::SerialDenseMatrix: explicit dimensions plus a total
entry function.  Only entries with i < numRows and j < numCols are
meaningful; operations are modelled on the entry function. -/
structure Mat where
  numRows : Nat
  numCols : Nat
  entry : Nat → Nat → ℚ

/-- SerialDenseMatrix::putScalar: set every entry of the matrix. -/
def Mat.putScalar (A : Mat) (c : ℚ) : Mat :=
  { A with entry := fun _ _ => c }

/-- Write a single entry, as the assignment A(i,j) = v. -/
def Mat.setEntry (A : Mat) (i j : Nat) (v : ℚ) : Mat :=
  { A with entry := fun i2 j2 => if i2 = i ∧ j2 = j then v else A.entry i2 j2 }

/-- SerialDenseMatrix::reshape: resize to m by n, keeping the values in the
overlap with the old shape and zero-initializing the new entries. -/
def Mat.reshape (A : Mat) (m n : Nat) : Mat :=
  ⟨m, n, fun i j => if i < A.numRows ∧ j < A.numCols then A.entry i j else 0⟩

/-- Build a concrete matrix from a list of rows (missing entries are 0). -/
def mkMat (rows cols : Nat) (l : List (List ℚ)) : Mat :=
  ⟨rows, cols, fun i j => (l.getD i []).getD j 0⟩

/-- The data of the projected least-squares problem
(class ProjectedLeastSquaresProblem): the upper Hessenberg matrix H, the
triangular factor R, the solution y, the right-hand side z, and the Givens
rotation cosines and sines arrays. -/
structure ProjectedLeastSquaresProblem where
  H : Mat
  R : Mat
  y : Mat
  z : Mat
  theCosines : Nat → ℚ
  theSines : Nat → ℚ

/-- ProjectedLeastSquaresProblem::reset: zero out the right-hand side z and
store beta (promoted from the magnitude type to the scalar type) in z(0,0).
The source performs no validation of beta here: there is no
TEST_FOR_EXCEPTION in the body, so the function is total. -/
def ProjectedLeastSquaresProblem.reset
    (p : ProjectedLeastSquaresProblem) (beta : ℚ) : ProjectedLeastSquaresProblem :=
  { p with z := (p.z.putScalar 0).setEntry 0 0 beta }

/-- ProjectedLeastSquaresProblem::reallocateAndReset: reject beta < 0 and
maxNumIterations <= 0; reshape each of H, R, y, z when its current shape is
too small for maxNumIterations; zero H, R and y; then reset, which rebuilds
z as beta times the first unit vector. -/
def ProjectedLeastSquaresProblem.reallocateAndReset
    (p : ProjectedLeastSquaresProblem) (beta : ℚ) (maxNumIterations : Int) :
    Except String ProjectedLeastSquaresProblem :=
  if beta < 0 then
    .error "reset: initial residual beta < 0"
  else if maxNumIterations ≤ 0 then
    .error "reset: maximum number of iterations <= 0"
  else
    let m := maxNumIterations.toNat
    let H1 := if p.H.numRows < m + 1 ∨ p.H.numCols < m then p.H.reshape (m + 1) m else p.H
    let H2 := H1.putScalar 0
    let R1 := if p.R.numRows < m + 1 ∨ p.R.numCols < m then p.R.reshape (m + 1) m else p.R
    let R2 := R1.putScalar 0
    let y1 := if p.y.numRows < m + 1 ∨ p.y.numCols < 1 then p.y.reshape (m + 1) 1 else p.y
    let y2 := y1.putScalar 0
    let z1 := if p.z.numRows < m + 1 ∨ p.z.numCols < 1 then p.z.reshape (m + 1) 1 else p.z
    .ok (ProjectedLeastSquaresProblem.reset
      { p with H := H2, R := R2, y := y2, z := z1 } beta)

@[simp] theorem Mat.numRows_putScalar (A : Mat) (c : ℚ) : (A.putScalar c).numRows = A.numRows := rfl

@[simp] theorem Mat.numCols_putScalar (A : Mat) (c : ℚ) : (A.putScalar c).numCols = A.numCols := rfl

@[simp] theorem Mat.entry_putScalar (A : Mat) (c : ℚ) (i j : Nat) : (A.putScalar c).entry i j = c := rfl

@[simp] theorem Mat.numRows_setEntry (A : Mat) (i j : Nat) (v : ℚ) : (A.setEntry i j v).numRows = A.numRows := rfl

@[simp] theorem Mat.numCols_setEntry (A : Mat) (i j : Nat) (v : ℚ) : (A.setEntry i j v).numCols = A.numCols := rfl

@[simp] theorem Mat.numRows_reshape (A : Mat) (m n : Nat) : (A.reshape m n).numRows = m := rfl

@[simp] theorem Mat.numCols_reshape (A : Mat) (m n : Nat) : (A.reshape m n).numCols = n := rfl

/-- Shape bookkeeping for one conditional reshape step of
reallocateAndReset, under the class invariant (one more row than columns):
the result covers the requested m+1 by m shape and never shrinks. -/
theorem reshape_step_dims (A : Mat) (m : Nat) (hA : A.numRows = A.numCols + 1) :
    m + 1 ≤ (if A.numRows < m + 1 ∨ A.numCols < m then A.reshape (m + 1) m else A).numRows ∧
    m ≤ (if A.numRows < m + 1 ∨ A.numCols < m then A.reshape (m + 1) m else A).numCols ∧
    A.numRows ≤ (if A.numRows < m + 1 ∨ A.numCols < m then A.reshape (m + 1) m else A).numRows ∧
    A.numCols ≤ (if A.numRows < m + 1 ∨ A.numCols < m then A.reshape (m + 1) m else A).numCols := by
  by_cases hc : A.numRows < m + 1 ∨ A.numCols < m
  · rw [if_pos hc]
    simp only [Mat.numRows_reshape, Mat.numCols_reshape]
    omega
  · rw [if_neg hc]
    push_neg at hc
    omega

/-- A sample problem state used for concrete instantiations: the 3 by 2
upper Hessenberg scenario from the specification. -/
def pW : ProjectedLeastSquaresProblem :=
  { H := mkMat 3 2 [[2, 1], [1, 3], [0, 1]]
    R := mkMat 3 2 []
    y := mkMat 3 1 []
    z := mkMat 3 1 [[5], [0], [0]]
    theCosines := fun _ => 0
    theSines := fun _ => 0 }

/-- C5: reallocateAndReset(beta, maxIters) fails with an argument error if
beta < 0 or maxIters <= 0; otherwise, regardless of the prior contents of
H, R, y and z, afterwards every entry of H, R and y is zero, every entry of
z is zero except z(0,0) = beta, and H and R have at least maxIters+1 rows
and maxIters columns, their shapes only ever growing (under the class
invariant that H and R have one more row than columns). -/
theorem reallocateAndReset_spec
    (p : ProjectedLeastSquaresProblem) (beta : ℚ) (maxIters : Int)
    (hH : p.H.numRows = p.H.numCols + 1) (hR : p.R.numRows = p.R.numCols + 1) :
    ((beta < 0 ∨ maxIters ≤ 0) →
      ∃ msg, p.reallocateAndReset beta maxIters = .error msg) ∧
    (0 ≤ beta → 0 < maxIters →
      ∃ q, p.reallocateAndReset beta maxIters = .ok q ∧
        (∀ i j, q.H.entry i j = 0) ∧ (∀ i j, q.R.entry i j = 0) ∧
        (∀ i j, q.y.entry i j = 0) ∧
        q.z.entry 0 0 = beta ∧ (∀ i j, ¬(i = 0 ∧ j = 0) → q.z.entry i j = 0) ∧
        maxIters.toNat + 1 ≤ q.H.numRows ∧ maxIters.toNat ≤ q.H.numCols ∧
        maxIters.toNat + 1 ≤ q.R.numRows ∧ maxIters.toNat ≤ q.R.numCols ∧
        p.H.numRows ≤ q.H.numRows ∧ p.H.numCols ≤ q.H.numCols ∧
        p.R.numRows ≤ q.R.numRows ∧ p.R.numCols ≤ q.R.numCols) := by
  constructor
  · intro h
    by_cases hb : beta < 0
    · exact ⟨"reset: initial residual beta < 0",
        by simp [ProjectedLeastSquaresProblem.reallocateAndReset, hb]⟩
    · have hm : maxIters ≤ 0 := h.resolve_left hb
      exact ⟨"reset: maximum number of iterations <= 0",
        by simp [ProjectedLeastSquaresProblem.reallocateAndReset, hb, hm]⟩
  · intro hb hm
    have hb2 : ¬ beta < 0 := not_lt.mpr hb
    have hm2 : ¬ maxIters ≤ 0 := not_le.mpr hm
    refine ⟨ProjectedLeastSquaresProblem.reset
      { p with
        H := (if p.H.numRows < maxIters.toNat + 1 ∨ p.H.numCols < maxIters.toNat then
                p.H.reshape (maxIters.toNat + 1) maxIters.toNat else p.H).putScalar 0
        R := (if p.R.numRows < maxIters.toNat + 1 ∨ p.R.numCols < maxIters.toNat then
                p.R.reshape (maxIters.toNat + 1) maxIters.toNat else p.R).putScalar 0
        y := (if p.y.numRows < maxIters.toNat + 1 ∨ p.y.numCols < 1 then
                p.y.reshape (maxIters.toNat + 1) 1 else p.y).putScalar 0
        z := if p.z.numRows < maxIters.toNat + 1 ∨ p.z.numCols < 1 then
                p.z.reshape (maxIters.toNat + 1) 1 else p.z } beta,
      ?_, ?_, ?_, ?_, ?_, ?_, ?_, ?_, ?_, ?_, ?_, ?_, ?_, ?_⟩
    · simp [ProjectedLeastSquaresProblem.reallocateAndReset, hb2, hm2]
    · intro i j
      simp [ProjectedLeastSquaresProblem.reset]
    · intro i j
      simp [ProjectedLeastSquaresProblem.reset]
    · intro i j
      simp [ProjectedLeastSquaresProblem.reset]
    · simp [ProjectedLeastSquaresProblem.reset, Mat.setEntry]
    · intro i j hij
      simp [ProjectedLeastSquaresProblem.reset, Mat.setEntry, hij]
    · simpa [ProjectedLeastSquaresProblem.reset]
        using (reshape_step_dims p.H maxIters.toNat hH).1
    · simpa [ProjectedLeastSquaresProblem.reset]
        using (reshape_step_dims p.H maxIters.toNat hH).2.1
    · simpa [ProjectedLeastSquaresProblem.reset]
        using (reshape_step_dims p.R maxIters.toNat hR).1
    · simpa [ProjectedLeastSquaresProblem.reset]
        using (reshape_step_dims p.R maxIters.toNat hR).2.1
    · simpa [ProjectedLeastSquaresProblem.reset]
        using (reshape_step_dims p.H maxIters.toNat hH).2.2.1
    · simpa [ProjectedLeastSquaresProblem.reset]
        using (reshape_step_dims p.H maxIters.toNat hH).2.2.2
    · simpa [ProjectedLeastSquaresProblem.reset]
        using (reshape_step_dims p.R maxIters.toNat hR).2.2.1
    · simpa [ProjectedLeastSquaresProblem.reset]
        using (reshape_step_dims p.R maxIters.toNat hR).2.2.2

/-- Witness for C5: instantiate at the concrete sample problem with
beta = 5 and maxIters = 4. -/
theorem reallocateAndReset_spec_witness :
    (pW.H.numRows = pW.H.numCols + 1 ∧ pW.R.numRows = pW.R.numCols + 1) ∧
    ((((5 : ℚ) < 0 ∨ (4 : Int) ≤ 0) →
        ∃ msg, pW.reallocateAndReset 5 4 = .error msg) ∧
      ((0 : ℚ) ≤ 5 → (0 : Int) < 4 →
        ∃ q, pW.reallocateAndReset 5 4 = .ok q ∧
          (∀ i j, q.H.entry i j = 0) ∧ (∀ i j, q.R.entry i j = 0) ∧
          (∀ i j, q.y.entry i j = 0) ∧
          q.z.entry 0 0 = 5 ∧ (∀ i j, ¬(i = 0 ∧ j = 0) → q.z.entry i j = 0) ∧
          (4 : Int).toNat + 1 ≤ q.H.numRows ∧ (4 : Int).toNat ≤ q.H.numCols ∧
          (4 : Int).toNat + 1 ≤ q.R.numRows ∧ (4 : Int).toNat ≤ q.R.numCols ∧
          pW.H.numRows ≤ q.H.numRows ∧ pW.H.numCols ≤ q.H.numCols ∧
          pW.R.numRows ≤ q.R.numRows ∧ pW.R.numCols ≤ q.R.numCols)) :=
  ⟨⟨by decide, by decide⟩, reallocateAndReset_spec pW 5 4 (by decide) (by decide)⟩

/-- C6 counterexample: the claim says reset(beta) raises an argument error
whenever beta < 0.  The source body of reset contains no check at all: at
beta = -1 it completes normally and silently stores the negative value in
z(0,0).  (The beta < 0 TEST_FOR_EXCEPTION lives in reallocateAndReset.) -/
theorem reset_no_validation_counterexample :
    (pW.reset (-1)).z.entry 0 0 = -1 ∧
    (pW.reset (-1)).z.entry 1 0 = 0 ∧
    (pW.reset (-1)).z.entry 0 0 < 0 := by
  refine ⟨by decide, by decide, by decide⟩

/-- C6 amended: reset(beta) never fails; for every beta, including
beta < 0, it zeroes z and sets z(0,0) = beta without any validation, and it
touches nothing but z. -/
theorem reset_spec (p : ProjectedLeastSquaresProblem) (beta : ℚ) :
    (∀ i j, (p.reset beta).z.entry i j = if i = 0 ∧ j = 0 then beta else 0) ∧
    (p.reset beta).H = p.H ∧ (p.reset beta).R = p.R ∧ (p.reset beta).y = p.y ∧
    (p.reset beta).z.numRows = p.z.numRows ∧
    (p.reset beta).z.numCols = p.z.numCols := by
  refine ⟨?_, rfl, rfl, rfl, rfl, rfl⟩
  intro i j
  simp [ProjectedLeastSquaresProblem.reset, Mat.putScalar, Mat.setEntry]

/-! ## Givens incremental updater (updateColumnGivens, updateColumnsGivens) -/

/-- Output of the rotation generator (BLAS ROTG as wrapped by
computeGivensRotation): cosine, sine, and the rotated result such that
applying the rotation sends the pair (x, y) to (r, 0). -/
structure GivensRotation where
  c : ℚ
  s : ℚ
  r : ℚ

/-- computeGivensRotation delegates to the BLAS ROTG routine, an external
trusted primitive, so the model takes the whole generator as an opaque
parameter. -/
abbrev GivensGen := ℚ → ℚ → GivensRotation

/-- One application of BLAS ROT with parameters (c, s) to positions
j and j+1 of a column x (the documented contract of ROT for one element
pair): x_j becomes c x_j + s x_{j+1} and x_{j+1} becomes c x_{j+1} - s x_j. -/
def rotAt (c s : ℚ) (j : Nat) (x : Nat → ℚ) : Nat → ℚ :=
  fun i =>
    if i = j then c * x j + s * x (j + 1)
    else if i = j + 1 then c * x (j + 1) - s * x j
    else x i

/-- Apply the previously stored rotations 0, ..., n-1, in increasing
index order, to a column. -/
def applyRots (cs sn : Nat → ℚ) (x : Nat → ℚ) : Nat → Nat → ℚ
  | 0 => x
  | n + 1 => rotAt (cs n) (sn n) n (applyRots cs sn x n)

/-- Column curCol of H after it has been copied into R (step 1 of
updateColumnGivens) and the previous rotations 0..curCol-1 have been applied
to it (step 2). -/
def rotatedCol (p : ProjectedLeastSquaresProblem) (curCol : Nat) : Nat → ℚ :=
  applyRots p.theCosines p.theSines (fun i => p.H.entry i curCol) curCol

/-- updateColumnGivens: the per-column Givens update.  It reads column
curCol of H, copies its first curCol+2 rows into R, applies the previous
rotations, generates a new rotation from the diagonal and subdiagonal
entries, stores its cosine and sine at index curCol, writes the rotated
result into R(curCol,curCol) and an exact zero into R(curCol+1,curCol),
applies the new rotation to rows curCol, curCol+1 of every column of z,
and returns the magnitude of z(curCol+1, 0).  H is only read and y is not
touched at all (it is merely passed through). -/
def updateColumnGivens (g : GivensGen) (p : ProjectedLeastSquaresProblem)
    (curCol : Nat) : ProjectedLeastSquaresProblem × ℚ :=
  let col := rotatedCol p curCol
  let rot := g (col curCol) (col (curCol + 1))
  let cs := fun j => if j = curCol then rot.c else p.theCosines j
  let sn := fun j => if j = curCol then rot.s else p.theSines j
  let Rnew : Mat :=
    { p.R with entry := fun i j =>
        if j = curCol ∧ i < curCol + 2 then
          if i = curCol then rot.r
          else if i = curCol + 1 then 0
          else col i
        else p.R.entry i j }
  let znew : Mat :=
    { p.z with entry := fun i j =>
        if j < p.z.numCols then
          if i = curCol then
            rot.c * p.z.entry curCol j + rot.s * p.z.entry (curCol + 1) j
          else if i = curCol + 1 then
            rot.c * p.z.entry (curCol + 1) j - rot.s * p.z.entry curCol j
          else p.z.entry i j
        else p.z.entry i j }
  ({ p with R := Rnew, z := znew, theCosines := cs, theSines := sn },
   |znew.entry (curCol + 1) 0|)

/-- The public single-column entry point
ProjectedLeastSquaresSolver::updateColumn, which forwards to
updateColumnGivens. -/
def updateColumn (g : GivensGen) (p : ProjectedLeastSquaresProblem)
    (curCol : Nat) : ProjectedLeastSquaresProblem × ℚ :=
  updateColumnGivens g p curCol

/-- The loop body of updateColumnsGivens: starting from an accumulator
(problem, lastResult), run updateColumnGivens on n consecutive columns
beginning at startCol, keeping the last returned residual norm. -/
def givensLoop (g : GivensGen) : ProjectedLeastSquaresProblem × ℚ → Nat → Nat →
    ProjectedLeastSquaresProblem × ℚ
  | acc, _, 0 => acc
  | acc, startCol, n + 1 =>
      givensLoop g (updateColumnGivens g acc.1 startCol) (startCol + 1) n

/-- updateColumnsGivens: reject startCol > endCol, then run the
single-column update on each column of [startCol, endCol] in increasing
order, returning the residual norm from the last iteration (lastResult is
initialized to zero). -/
def updateColumnsGivens (g : GivensGen) (p : ProjectedLeastSquaresProblem)
    (startCol endCol : Nat) : Except String (ProjectedLeastSquaresProblem × ℚ) :=
  if startCol > endCol then
    .error "updateColumnGivens: startCol > endCol"
  else
    .ok (givensLoop g (p, 0) startCol (endCol + 1 - startCol))

/-- The public panel entry point
ProjectedLeastSquaresSolver::updateColumns, which forwards to
updateColumnsGivens. -/
def updateColumns (g : GivensGen) (p : ProjectedLeastSquaresProblem)
    (startCol endCol : Nat) : Except String (ProjectedLeastSquaresProblem × ℚ) :=
  updateColumnsGivens g p startCol endCol

/-- The reference sequence of single-column calls: starting from
(problem, lastResult), call the public updateColumn once per column for n
consecutive columns beginning at startCol, in increasing order, keeping the
last returned residual norm.  This is the spec-side description against
which the panel update is compared. -/
def seqCalls (g : GivensGen) : ProjectedLeastSquaresProblem × ℚ → Nat → Nat →
    ProjectedLeastSquaresProblem × ℚ
  | acc, _, 0 => acc
  | acc, startCol, n + 1 =>
      seqCalls g (updateColumn g acc.1 startCol) (startCol + 1) n

theorem seqCalls_eq_givensLoop (g : GivensGen) :
    ∀ (n startCol : Nat) (acc : ProjectedLeastSquaresProblem × ℚ),
      seqCalls g acc startCol n = givensLoop g acc startCol n := by
  intro n
  induction n with
  | zero => intro startCol acc; rfl
  | succ n ih =>
      intro startCol acc
      simp only [seqCalls, givensLoop, updateColumn]
      exact ih _ _

/-- The last iteration of the loop: running n+1 columns from startCol is
running n columns and then one single-column update at startCol + n. -/
theorem givensLoop_last (g : GivensGen) :
    ∀ (n startCol : Nat) (acc : ProjectedLeastSquaresProblem × ℚ),
      givensLoop g acc startCol (n + 1) =
        updateColumnGivens g (givensLoop g acc startCol n).1 (startCol + n) := by
  intro n
  induction n with
  | zero => intro startCol acc; rfl
  | succ n ih =>
      intro startCol acc
      show givensLoop g (updateColumnGivens g acc.1 startCol) (startCol + 1) (n + 1) = _
      rw [ih]
      show _ = updateColumnGivens g
        (givensLoop g (updateColumnGivens g acc.1 startCol) (startCol + 1) n).1
        (startCol + (n + 1))
      have harith : startCol + 1 + n = startCol + (n + 1) := by omega
      rw [harith]

/-- Validity of a column index for the problem: the update touches rows
0..k+1 and column k of H and R, rows 0..k+1 of z, and z has at least one
column. -/
def okCol (p : ProjectedLeastSquaresProblem) (k : Nat) : Prop :=
  k + 2 ≤ p.H.numRows ∧ k + 1 ≤ p.H.numCols ∧
  p.R.numRows = p.H.numRows ∧ p.R.numCols = p.H.numCols ∧
  k + 2 ≤ p.z.numRows ∧ 1 ≤ p.z.numCols

instance (p : ProjectedLeastSquaresProblem) (k : Nat) : Decidable (okCol p k) := by
  unfold okCol
  infer_instance

/-- A sample rotation generator for concrete instantiations (the actual
generator, BLAS ROTG, is an opaque external routine, so any function of
this type is a legitimate instance). -/
def gW : GivensGen := fun x y => ⟨x, y, x + y⟩

/-- C1: for every problem and every startCol ≤ endCol, the panel update
updateColumns(problem, startCol, endCol) produces exactly the same problem
state (hence the same R, z, cosines and sines, and also the same H and y)
and returns the same residual norm as calling updateColumn once for each
k = startCol, ..., endCol in increasing order. -/
theorem updateColumns_eq_seq_updateColumn (g : GivensGen)
    (p : ProjectedLeastSquaresProblem) (startCol endCol : Nat)
    (h : startCol ≤ endCol) :
    updateColumns g p startCol endCol =
      .ok (seqCalls g (p, 0) startCol (endCol + 1 - startCol)) := by
  rw [seqCalls_eq_givensLoop]
  simp [updateColumns, updateColumnsGivens, not_lt.mpr h]

/-- Witness for C1 at the sample problem, columns 0..1. -/
theorem updateColumns_eq_seq_updateColumn_witness :
    0 ≤ 1 ∧ updateColumns gW pW 0 1 = .ok (seqCalls gW (pW, 0) 0 (1 + 1 - 0)) :=
  ⟨by decide, updateColumns_eq_seq_updateColumn gW pW 0 1 (by decide)⟩

/-- C2: after the single-column update at column k, the subdiagonal entry
R(k+1, k) is exactly zero (the additive identity of the scalar field, not
merely small), and R(k, k) holds exactly the result value produced by the
Givens rotation generator for the rotated column. -/
theorem updateColumn_zero_forcing (g : GivensGen)
    (p : ProjectedLeastSquaresProblem) (k : Nat) (h : okCol p k) :
    ((updateColumn g p k).1).R.entry (k + 1) k = 0 ∧
    ((updateColumn g p k).1).R.entry k k =
      (g (rotatedCol p k k) (rotatedCol p k (k + 1))).r := by
  constructor
  · simp [updateColumn, updateColumnGivens]
  · simp [updateColumn, updateColumnGivens]

/-- Witness for C2 at the sample problem, column 0. -/
theorem updateColumn_zero_forcing_witness :
    okCol pW 0 ∧
    (((updateColumn gW pW 0).1).R.entry 1 0 = 0 ∧
      ((updateColumn gW pW 0).1).R.entry 0 0 =
        (gW (rotatedCol pW 0 0) (rotatedCol pW 0 1)).r) :=
  ⟨by decide, updateColumn_zero_forcing gW pW 0 (by decide)⟩

/-- C3: updateColumn(problem, k) returns exactly the magnitude of entry
z(k+1, 0) of the right-hand side after the new rotation has been applied,
a non-negative value; and updateColumns(problem, startCol, endCol) returns
exactly the value that the last single-column update (at column endCol,
starting from the state produced by the preceding columns) returns. -/
theorem updateColumn_residual (g : GivensGen)
    (p : ProjectedLeastSquaresProblem) (k startCol endCol : Nat)
    (h : okCol p k) (hse : startCol ≤ endCol) :
    (updateColumn g p k).2 = |((updateColumn g p k).1).z.entry (k + 1) 0| ∧
    0 ≤ (updateColumn g p k).2 ∧
    ∀ res, updateColumns g p startCol endCol = .ok res →
      res.2 = (updateColumn g
        (seqCalls g (p, 0) startCol (endCol - startCol)).1 endCol).2 := by
  refine ⟨rfl, abs_nonneg _, ?_⟩
  intro res hres
  rw [updateColumns, updateColumnsGivens, if_neg (not_lt.mpr hse)] at hres
  have hn : endCol + 1 - startCol = (endCol - startCol) + 1 := by omega
  rw [hn] at hres
  rw [givensLoop_last] at hres
  have hlast : startCol + (endCol - startCol) = endCol := by omega
  rw [hlast] at hres
  cases hres
  rw [seqCalls_eq_givensLoop]
  rfl

/-- Witness for C3 at the sample problem, column 0 and range 0..1. -/
theorem updateColumn_residual_witness :
    (okCol pW 0 ∧ 0 ≤ 1) ∧
    ((updateColumn gW pW 0).2 = |((updateColumn gW pW 0).1).z.entry 1 0| ∧
      0 ≤ (updateColumn gW pW 0).2 ∧
      ∀ res, updateColumns gW pW 0 1 = .ok res →
        res.2 = (updateColumn gW (seqCalls gW (pW, 0) 0 (1 - 0)).1 1).2) :=
  ⟨⟨by decide, by decide⟩, updateColumn_residual gW pW 0 0 1 (by decide) (by decide)⟩

/-- C4: the update entry points modify only R, z and the cosines and sines;
the Hessenberg matrix H and the solution vector y are left entirely
unchanged (y is passed to updateColumnGivens but never written). -/
theorem update_frame (g : GivensGen) (p : ProjectedLeastSquaresProblem)
    (k startCol endCol : Nat) :
    (updateColumn g p k).1.H = p.H ∧ (updateColumn g p k).1.y = p.y ∧
    ∀ res, updateColumns g p startCol endCol = .ok res →
      res.1.H = p.H ∧ res.1.y = p.y := by
  refine ⟨rfl, rfl, ?_⟩
  intro res hres
  rw [updateColumns, updateColumnsGivens] at hres
  by_cases hse : startCol > endCol
  · rw [if_pos hse] at hres
    cases hres
  · rw [if_neg hse] at hres
    have hloop : ∀ (n s : Nat) (acc : ProjectedLeastSquaresProblem × ℚ),
        (givensLoop g acc s n).1.H = acc.1.H ∧ (givensLoop g acc s n).1.y = acc.1.y := by
      intro n
      induction n with
      | zero => intro s acc; exact ⟨rfl, rfl⟩
      | succ n ih =>
          intro s acc
          have hstep := ih (s + 1) (updateColumnGivens g acc.1 s)
          exact ⟨hstep.1, hstep.2⟩
    cases hres
    exact hloop _ _ _

/-- Witness for C4 at the sample problem. -/
theorem update_frame_witness :
    (updateColumn gW pW 0).1.H = pW.H ∧ (updateColumn gW pW 0).1.y = pW.y ∧
    ((givensLoop gW (pW, 0) 0 1).1.H = pW.H ∧ (givensLoop gW (pW, 0) 0 1).1.y = pW.y) := by
  have h := update_frame gW pW 0 0 0
  exact ⟨h.1, h.2.1, h.2.2 (givensLoop gW (pW, 0) 0 1) rfl⟩

/-! ## Triangular solves (LocalDenseMatrixOps::rightUpperTriSolve and
ProjectedLeastSquaresSolver::solveUpperTriangularSystem) -/

/-- One step of right-sided upper-triangular back-substitution on a row
vector x (solving x * T = b column by column): the documented contract of
BLAS TRSM with SIDE = RIGHT, UPLO = UPPER, NO_TRANS, NON_UNIT_DIAG, in
exact arithmetic. -/
def fwdStep (T : Mat) (x : Nat → ℚ) (j : Nat) : Nat → ℚ :=
  fun j2 =>
    if j2 = j then (x j - ∑ k in Finset.range j, x k * T.entry k j) / T.entry j j
    else x j2

/-- Solve x * T = b for a row vector b, where T is the leading n by n
upper-triangular block of the matrix T, proceeding over columns in
increasing order. -/
def rowSolve (T : Mat) (n : Nat) (x : Nat → ℚ) : Nat → ℚ :=
  (List.range n).foldl (fwdStep T) x

/-- One step of left-sided upper-triangular back-substitution on a column
vector (solving T * x = b row by row from the bottom): the documented
contract of BLAS TRSM with SIDE = LEFT, UPLO = UPPER, NO_TRANS,
NON_UNIT_DIAG, in exact arithmetic. -/
def backStep (T : Mat) (n : Nat) (x : Nat → ℚ) (i : Nat) : Nat → ℚ :=
  fun i2 =>
    if i2 = i then (x i - ∑ k in Finset.Ico (i + 1) n, T.entry i k * x k) / T.entry i i
    else x i2

/-- Solve T * x = b for a column vector b, where T is the leading n by n
upper-triangular block, proceeding over rows in decreasing order. -/
def colSolve (T : Mat) (n : Nat) (x : Nat → ℚ) : Nat → ℚ :=
  ((List.range n).reverse).foldl (backStep T n) x

/-- The TRSM call of robustness policy 0: overwrite the leading n by nrhs
block of x with the solution of T x = (that block), T being the leading
n by n upper triangle of R. -/
def leftUpperTriSolve (R : Mat) (n nrhs : Nat) (x : Mat) : Mat :=
  { x with entry := fun i j =>
      if i < n ∧ j < nrhs then colSolve R n (fun i2 => x.entry i2 j) i
      else x.entry i j }

/-- LocalDenseMatrixOps::rightUpperTriSolve.  After checking
B.numCols == R.numRows it calls
TRSM(RIGHT_SIDE, UPPER_TRI, NO_TRANS, NON_UNIT_DIAG,
     M = R.numCols(), N = B.numCols(), 1, R, B): per the BLAS contract the
updated matrix is M by N, i.e. only the first R.numCols rows of B are
overwritten (not B.numRows rows), and the triangular matrix is the leading
B.numCols by B.numCols block of R. -/
def rightUpperTriSolve (B R : Mat) : Except String Mat :=
  if B.numCols ≠ R.numRows then
    .error "rightUpperTriSolve: R and B have incompatible dimensions"
  else
    .ok { B with entry := fun i j =>
        if i < R.numCols ∧ j < B.numCols then
          rowSolve R B.numCols (fun j2 => B.entry i j2) j
        else B.entry i j }

/-- The off-diagonal column 1-norms returned by LAPACK's LATRS routine when
NORMIN = 'N' (its documented output contract for an upper-triangular
matrix): cnorm(j) is the 1-norm of the off-diagonal part of column j. -/
def cnorm (R : Mat) (j : Nat) : ℚ :=
  ∑ i in Finset.range j, |R.entry i j|

/-- The column-deficiency test of robustness policy 1:
R(j,j) == 0 && (j == 0 || cnorm[j] == 0). -/
def deficientColumn (R : Mat) (j : Nat) : Prop :=
  R.entry j j = 0 ∧ (j = 0 ∨ cnorm R j = 0)

instance (R : Mat) (j : Nat) : Decidable (deficientColumn R j) := by
  unfold deficientColumn
  infer_instance

/-- The rank-detection loop of robustness policy 1: start from rank = N and
decrement once for every deficient column. -/
def latrsRankLoop (R : Mat) (N : Nat) : Int :=
  (List.range N).foldl (fun rank j => if deficientColumn R j then rank - 1 else rank)
    (N : Int)

/-- The opaque outputs of the external LAPACK routines used by
solveUpperTriangularSystem: the LATRS scaled solutions and scale factors
(one per right-hand-side column), and the GELSS minimum-norm solution and
detected rank. -/
structure LapackOracle where
  latrsSol : Nat → Nat → ℚ
  latrsScale : Nat → ℚ
  gelssSol : Nat → Nat → ℚ
  gelssRank : Int

/-- The scale-factor check of robustness policy 1's per-column loop:
foundRankDeficiency is set if any column's LATRS scale factor is zero. -/
def latrsScaleFlag (orc : LapackOracle) (nrhs : Nat) : Bool :=
  (List.range nrhs).foldl (fun found j => found || decide (orc.latrsScale j = 0)) false

/-- x.assign(b) (or of the leading-columns view of b): copy the first nrhs
columns of b into x. -/
def assignCols (x b : Mat) (nrhs : Nat) : Mat :=
  { x with entry := fun i j =>
      if i < x.numRows ∧ j < nrhs then b.entry i j else x.entry i j }

/-- ProjectedLeastSquaresSolver::solveUpperTriangularSystem: solve the
square upper-triangular system given by the leading N by N block of R
(N = R.numCols), after the argument checks, under the selected robustness
policy; return the solution along with (detectedRank, foundRankDeficiency). -/
def solveUpperTriangularSystem (orc : LapackOracle) (x R b : Mat)
    (robustness : Int) : Except String (Mat × Int × Bool) :=
  let N := R.numCols
  let M := R.numRows
  let NRHS := x.numCols
  if NRHS > b.numCols then
    .error "x has more columns than b"
  else if b.numRows < N then
    .error "b has too few rows"
  else if x.numRows < N then
    .error "x has too few rows"
  else if M < N then
    .error "R has fewer rows than columns"
  else if robustness < 0 ∨ robustness > 2 then
    .error "invalid robustness value"
  else
    let x0 := assignCols x b NRHS
    if robustness = 0 then
      .ok (leftUpperTriSolve R N NRHS x0, ((N : Int), false))
    else if robustness = 1 then
      let x1 : Mat :=
        { x0 with entry := fun i j =>
            if j < NRHS ∧ i < N then orc.latrsSol j i else x0.entry i j }
      let rank := latrsRankLoop R N
      .ok (x1, (rank, latrsScaleFlag orc NRHS || decide (rank < (N : Int))))
    else if robustness = 2 then
      let x2 : Mat :=
        { x0 with entry := fun i j =>
            if j < NRHS ∧ i < N then orc.gelssSol j i else x0.entry i j }
      .ok (x2, (orc.gelssRank, decide (orc.gelssRank < (N : Int))))
    else
      .error "should never get here"

/-- The declarative rank estimate of robustness policy 1: N minus the
number of columns j < N whose diagonal entry is zero and whose off-diagonal
1-norm is also zero, the first column being exempted from the off-diagonal
requirement. -/
def detectedRankSpec (R : Mat) : Int :=
  (R.numCols : Int) - (((Finset.range R.numCols).filter (deficientColumn R)).card : Int)

/-- A Teuchos::View of the leading m by n block of a matrix. -/
def subMat (A : Mat) (m n : Nat) : Mat :=
  ⟨m, n, A.entry⟩

@[simp] theorem Mat.numRows_subMat (A : Mat) (m n : Nat) : (subMat A m n).numRows = m := rfl

@[simp] theorem Mat.numCols_subMat (A : Mat) (m n : Nat) : (subMat A m n).numCols = n := rfl

@[simp] theorem Mat.entry_subMat (A : Mat) (m n i j : Nat) : (subMat A m n).entry i j = A.entry i j := rfl

/-- ProjectedLeastSquaresSolver::solveGivens: solve the least-squares
problem through column curCol by solving the (curCol+1) by (curCol+1)
upper-triangular system R y = z on views of R, z and y, calling
solveUpperTriangularSystem with its default robustness value 0 and
discarding the returned (detectedRank, foundRankDeficiency) pair
(the source casts the returned pair to void).  numRows - 1 = curCol + 1. -/
def solveGivens (orc : LapackOracle) (p : ProjectedLeastSquaresProblem)
    (curCol : Nat) : Except String ProjectedLeastSquaresProblem :=
  match solveUpperTriangularSystem orc
      (subMat p.y (curCol + 1) p.y.numCols)
      (subMat p.R (curCol + 1) (curCol + 1))
      (subMat p.z (curCol + 1) p.z.numCols) 0 with
  | .error e => .error e
  | .ok (xsol, _pair) =>
      let ynew : Mat :=
        { p.y with entry := fun i j =>
            if i < curCol + 1 ∧ j < p.y.numCols then xsol.entry i j
            else p.y.entry i j }
      .ok { p with y := ynew }

/-- The public entry point ProjectedLeastSquaresSolver::solve, which
forwards to solveGivens and returns no rank information. -/
def solve (orc : LapackOracle) (p : ProjectedLeastSquaresProblem)
    (curCol : Nat) : Except String ProjectedLeastSquaresProblem :=
  solveGivens orc p curCol

/-- Counting helper: a fold that decrements once per list element
satisfying q computes the initial value minus the count. -/
theorem foldl_countdown (q : Nat → Prop) [DecidablePred q] :
    ∀ (l : List Nat) (init : Int),
      l.foldl (fun r j => if q j then r - 1 else r) init =
        init - (l.countP (fun j => decide (q j)) : Int) := by
  intro l
  induction l with
  | nil => intro init; simp
  | cons a l ih =>
      intro init
      simp only [List.foldl_cons, List.countP_cons]
      by_cases hq : q a
      · rw [if_pos hq, ih]
        simp [hq]
        ring
      · rw [if_neg hq, ih]
        simp [hq]

/-- Counting helper: the Finset count of q below N equals the List count. -/
theorem card_filter_range (q : Nat → Prop) [DecidablePred q] (N : Nat) :
    ((Finset.range N).filter q).card = (List.range N).countP (fun j => decide (q j)) := by
  induction N with
  | zero => simp
  | succ n ih =>
      rw [Finset.range_succ, Finset.filter_insert, List.range_succ, List.countP_append]
      by_cases hq : q n
      · rw [if_pos hq, Finset.card_insert_of_not_mem (by simp)]
        simp [ih, hq]
      · rw [if_neg hq]
        simp [ih, hq]

/-- The imperative countdown of policy 1 computes the declarative rank. -/
theorem latrsRankLoop_eq (R : Mat) :
    latrsRankLoop R R.numCols = detectedRankSpec R := by
  unfold latrsRankLoop detectedRankSpec
  rw [foldl_countdown (deficientColumn R), card_filter_range (deficientColumn R)]

/-- The scale-factor flag is set exactly when some column's scale factor is
zero. -/
theorem latrsScaleFlag_iff (orc : LapackOracle) (n : Nat) :
    latrsScaleFlag orc n = true ↔ ∃ j < n, orc.latrsScale j = 0 := by
  unfold latrsScaleFlag
  have haux : ∀ (l : List Nat) (acc : Bool),
      l.foldl (fun found j => found || decide (orc.latrsScale j = 0)) acc =
        (acc || l.any (fun j => decide (orc.latrsScale j = 0))) := by
    intro l
    induction l with
    | nil => intro acc; simp
    | cons a l ih =>
        intro acc
        simp [ih, Bool.or_assoc]
  rw [haux]
  simp [List.any_eq_true, List.mem_range]

/-- C7: under robustness policy 1, the solver computes its rank estimate by
counting down from N = R.numCols, a column j being counted as deficient
exactly when its diagonal entry is zero and (except for column 0) its
off-diagonal 1-norm is also zero, and reports foundRankDeficiency = true
exactly when the detected rank is below N or some right-hand-side column's
LATRS scale factor is zero. -/
theorem solveUpperTriangularSystem_policy1 (orc : LapackOracle) (x R b : Mat)
    (h1 : x.numCols ≤ b.numCols) (h2 : R.numCols ≤ b.numRows)
    (h3 : R.numCols ≤ x.numRows) (h4 : R.numCols ≤ R.numRows) :
    ∃ xsol fd,
      solveUpperTriangularSystem orc x R b 1 = .ok (xsol, (detectedRankSpec R, fd)) ∧
      (fd = true ↔
        (detectedRankSpec R < (R.numCols : Int) ∨
          ∃ j < x.numCols, orc.latrsScale j = 0)) := by
  simp only [solveUpperTriangularSystem]
  rw [if_neg (not_lt.mpr h1), if_neg (not_lt.mpr h2), if_neg (not_lt.mpr h3),
    if_neg (not_lt.mpr h4), if_neg (by decide : ¬((1 : Int) < 0 ∨ (1 : Int) > 2)),
    if_neg (by decide : ¬(1 : Int) = 0)]
  rw [if_pos trivial, latrsRankLoop_eq]
  refine ⟨_, _, rfl, ?_⟩
  rw [Bool.or_eq_true, decide_eq_true_eq, latrsScaleFlag_iff]
  exact Or.comm

/-- Concrete data for the C7 witness. -/
def orcW : LapackOracle :=
  { latrsSol := fun _ _ => 0
    latrsScale := fun _ => 1
    gelssSol := fun _ _ => 0
    gelssRank := 0 }

def xW7 : Mat := mkMat 2 1 []

def RW7 : Mat := mkMat 2 2 [[1, 1], [0, 1]]

def bW7 : Mat := mkMat 2 1 [[1], [2]]

/-- Witness for C7 at a concrete well-formed 2 by 2 system. -/
theorem solveUpperTriangularSystem_policy1_witness :
    (xW7.numCols ≤ bW7.numCols ∧ RW7.numCols ≤ bW7.numRows ∧
      RW7.numCols ≤ xW7.numRows ∧ RW7.numCols ≤ RW7.numRows) ∧
    ∃ xsol fd,
      solveUpperTriangularSystem orcW xW7 RW7 bW7 1 = .ok (xsol, (detectedRankSpec RW7, fd)) ∧
      (fd = true ↔
        (detectedRankSpec RW7 < (RW7.numCols : Int) ∨
          ∃ j < xW7.numCols, orcW.latrsScale j = 0)) :=
  ⟨⟨by decide, by decide, by decide, by decide⟩,
    solveUpperTriangularSystem_policy1 orcW xW7 RW7 bW7
      (by decide) (by decide) (by decide) (by decide)⟩

/-- Concrete data for the C8 failing input: B is 3 by 2 with every row
(1, 1), and R is the 2 by 2 upper-triangular matrix with rows (1, 1) and
(0, 1), so that B * R^(-1) has every row (1, 0). -/
def BW8 : Mat := mkMat 3 2 [[1, 1], [1, 1], [1, 1]]

def RW8 : Mat := mkMat 2 2 [[1, 1], [0, 1]]

/-- The matrix computed by rightUpperTriSolve at the C8 failing input. -/
def rutsOut : Mat :=
  match rightUpperTriSolve BW8 RW8 with
  | .ok c => c
  | .error _ => BW8

/-- C8 (code bug): the dimension check passes (B.numCols = R.numRows = 2),
but because the source passes M = R.numCols() instead of B.numRows() to
TRSM, only the first two rows of B are overwritten with rows of B * R^(-1):
rows 0 and 1 become (1, 0), while row 2 keeps its old value (1, 1) even
though the full solve B := B * R^(-1), promised by the method's own
documentation, would make it (1, 0) as well (as rowSolve on row 2 shows). -/
theorem rightUpperTriSolve_skips_trailing_rows :
    rightUpperTriSolve BW8 RW8 = .ok rutsOut ∧
    rutsOut.entry 0 0 = 1 ∧ rutsOut.entry 0 1 = 0 ∧
    rutsOut.entry 1 0 = 1 ∧ rutsOut.entry 1 1 = 0 ∧
    rutsOut.entry 2 0 = 1 ∧ rutsOut.entry 2 1 = 1 ∧
    rowSolve RW8 2 (fun j => BW8.entry 2 j) 0 = 1 ∧
    rowSolve RW8 2 (fun j => BW8.entry 2 j) 1 = 0 := by
  refine ⟨rfl, ?_, ?_, ?_, ?_, ?_, ?_, ?_, ?_⟩ <;>
    simp [rutsOut, rightUpperTriSolve, rowSolve, fwdStep, BW8, RW8, mkMat,
      List.range_succ]

/-- C10: the public solve(problem, curCol) entry point always solves the
(curCol+1) by (curCol+1) triangular system with robustness policy 0 (the
plain TRSM solve): the underlying call returns the pair
(detectedRank, foundRankDeficiency) = (curCol+1, false), solve discards it
(its result does not depend on the LAPACK rank-diagnosis oracles at all),
and only y is modified. -/
theorem solve_fast_policy (orc orc2 : LapackOracle)
    (p : ProjectedLeastSquaresProblem) (k : Nat)
    (h : p.y.numCols ≤ p.z.numCols) :
    (∃ xsol, solveUpperTriangularSystem orc (subMat p.y (k + 1) p.y.numCols)
        (subMat p.R (k + 1) (k + 1)) (subMat p.z (k + 1) p.z.numCols) 0 =
        .ok (xsol, (((k + 1 : Nat) : Int), false))) ∧
    solve orc p k = solve orc2 p k ∧
    (∃ q, solve orc p k = .ok q ∧ q.H = p.H ∧ q.R = p.R ∧ q.z = p.z ∧
      q.theCosines = p.theCosines ∧ q.theSines = p.theSines) := by
  have hUTS : ∀ o : LapackOracle,
      solveUpperTriangularSystem o (subMat p.y (k + 1) p.y.numCols)
        (subMat p.R (k + 1) (k + 1)) (subMat p.z (k + 1) p.z.numCols) 0 =
      .ok (leftUpperTriSolve (subMat p.R (k + 1) (k + 1)) (k + 1) p.y.numCols
            (assignCols (subMat p.y (k + 1) p.y.numCols)
              (subMat p.z (k + 1) p.z.numCols) p.y.numCols),
          (((k + 1 : Nat) : Int), false)) := by
    intro o
    simp only [solveUpperTriangularSystem, Mat.numRows_subMat, Mat.numCols_subMat]
    rw [if_neg (not_lt.mpr h), if_neg (lt_irrefl _), if_neg (lt_irrefl _),
      if_neg (lt_irrefl _), if_neg (by decide : ¬((0 : Int) < 0 ∨ (0 : Int) > 2)),
      if_pos trivial]
  refine ⟨⟨_, hUTS orc⟩, ?_, ?_⟩
  · simp only [solve, solveGivens, hUTS]
  · refine ⟨⟨p.H, p.R,
      ⟨p.y.numRows, p.y.numCols, fun i j =>
        if i < k + 1 ∧ j < p.y.numCols then
          (leftUpperTriSolve (subMat p.R (k + 1) (k + 1)) (k + 1) p.y.numCols
            (assignCols (subMat p.y (k + 1) p.y.numCols)
              (subMat p.z (k + 1) p.z.numCols) p.y.numCols)).entry i j
        else p.y.entry i j⟩,
      p.z, p.theCosines, p.theSines⟩, ?_, rfl, rfl, rfl, rfl, rfl⟩
    simp only [solve, solveGivens, hUTS]

/-- Witness for C10 at the sample problem, column 0. -/
theorem solve_fast_policy_witness :
    pW.y.numCols ≤ pW.z.numCols ∧
    ((∃ xsol, solveUpperTriangularSystem orcW (subMat pW.y 1 pW.y.numCols)
        (subMat pW.R 1 1) (subMat pW.z 1 pW.z.numCols) 0 =
        .ok (xsol, (((0 + 1 : Nat) : Int), false))) ∧
      solve orcW pW 0 = solve orcW pW 0 ∧
      (∃ q, solve orcW pW 0 = .ok q ∧ q.H = pW.H ∧ q.R = pW.R ∧ q.z = pW.z ∧
        q.theCosines = pW.theCosines ∧ q.theSines = pW.theSines)) :=
  ⟨by decide, solve_fast_policy orcW orcW pW 0 (by decide)⟩

/-! ## Self-test harness verdict (testUpdateColumn) -/

/-- The error bound computed by testUpdateColumn:
wiggleFactor = 10 * squareroot(numRows*numCols),
solutionErrorBoundFactor = wiggleFactor * leastSquaresCondNum,
solutionErrorBound = solutionErrorBoundFactor * eps.
sqrtRC stands for the value of the external square-root routine at
numRows*numCols, and condNum for the computed condition number. -/
def solutionErrorBound (sqrtRC condNum eps : ℚ) : ℚ :=
  let wiggleFactor := 10 * sqrtRC
  let solutionErrorBoundFactor := wiggleFactor * condNum
  solutionErrorBoundFactor * eps

/-- blockGivensSolutionError = testBlockGivens ? solutionError(...) : 0. -/
def blockErrMetric (bErrRaw : ℚ) (testBlockGivens : Bool) : ℚ :=
  if testBlockGivens then bErrRaw else 0

/-- The final verdict cascade of testUpdateColumn (the nested ifs at the
end of the routine); naninf models STM::isnaninf. -/
def testUpdateColumnVerdict (naninf : ℚ → Bool) (bound gErr bErr : ℚ)
    (testBlockGivens : Bool) : Bool :=
  if naninf bound then false
  else if naninf gErr then false
  else if gErr > bound then false
  else if testBlockGivens then
    if naninf bErr then false
    else if bErr > bound then false
    else true
  else true

/-- The success judgement of testUpdateColumn as a function of the computed
error metrics: the verdict cascade applied to the computed bound and to the
(possibly zeroed) block-Givens error metric. -/
def testUpdateColumnJudge (naninf : ℚ → Bool) (sqrtRC condNum eps gErr bErrRaw : ℚ)
    (testBlockGivens : Bool) : Bool :=
  testUpdateColumnVerdict naninf (solutionErrorBound sqrtRC condNum eps) gErr
    (blockErrMetric bErrRaw testBlockGivens) testBlockGivens

/-- C9: the self-test harness declares success only if the computed bound
10 * sqrt(rows*cols) * condNum * eps is not NaN/Inf, neither Givens
solution-error metric is NaN/Inf, and every tested relative solution error
is at most the bound (the block-Givens error is tested exactly when
testBlockGivens is set; otherwise that metric is 0, which the actual
isnaninf never flags, hence the hypothesis on naninf at 0). -/
theorem testUpdateColumn_success_conditions (naninf : ℚ → Bool)
    (sqrtRC condNum eps gErr bErrRaw : ℚ) (testBlockGivens : Bool)
    (hz : naninf 0 = false)
    (hsucc : testUpdateColumnJudge naninf sqrtRC condNum eps gErr bErrRaw
      testBlockGivens = true) :
    naninf (solutionErrorBound sqrtRC condNum eps) = false ∧
    naninf gErr = false ∧
    naninf (blockErrMetric bErrRaw testBlockGivens) = false ∧
    gErr ≤ solutionErrorBound sqrtRC condNum eps ∧
    (testBlockGivens = true →
      blockErrMetric bErrRaw testBlockGivens ≤ solutionErrorBound sqrtRC condNum eps) := by
  unfold testUpdateColumnJudge testUpdateColumnVerdict at hsucc
  split_ifs at hsucc with h1 h2 h3 h4 h5 h6
  · simp_all [blockErrMetric, not_lt]
  · simp_all [blockErrMetric, not_lt]

/-- The trivial isnaninf of the exact-rational model (no rational is NaN or
infinite), used for the C9 witness. -/
def naninfW : ℚ → Bool := fun _ => false

/-- Witness for C9 at concrete metric values. -/
theorem testUpdateColumn_success_conditions_witness :
    (naninfW 0 = false ∧
      testUpdateColumnJudge naninfW 1 1 1 1 2 true = true) ∧
    (naninfW (solutionErrorBound 1 1 1) = false ∧
      naninfW 1 = false ∧
      naninfW (blockErrMetric 2 true) = false ∧
      1 ≤ solutionErrorBound 1 1 1 ∧
      (true = true → blockErrMetric 2 true ≤ solutionErrorBound 1 1 1)) :=
  ⟨⟨rfl, by norm_num [testUpdateColumnJudge, testUpdateColumnVerdict,
      solutionErrorBound, blockErrMetric, naninfW]⟩,
    testUpdateColumn_success_conditions naninfW 1 1 1 1 2 true rfl
      (by norm_num [testUpdateColumnJudge, testUpdateColumnVerdict,
        solutionErrorBound, blockErrMetric, naninfW])⟩

end Belos
